import Mathlib

/-!
Shallow embedding of the fortio/assert Go library (src/assert.go):
assertion helpers over Go interface values, and the reflective test-suite
runner Run with optional SetupTest / TearDownTest hooks.
-/

namespace assert

/--
Model of a Go interface value as passed to the assertion helpers.
Pointers carry an abstract address (their identity) together with the value
they point to; slices model the composite kind whose dynamic type is not
comparable with the Go operator ==, so that comparing two interface values
holding slices panics at run time.
-/
inductive GoValue where
  | intV (n : Int)
  | strV (s : String)
  | boolV (b : Bool)
  | nilV
  | ptrV (addr : Nat) (pointee : GoValue)
  | sliceV (elems : List GoValue)

mutual

/--
Model of reflect.DeepEqual on two interface values (src/assert.go line 17).
Values of distinct dynamic types are never deeply equal; pointers are deeply
equal when identical or when their pointees are deeply equal; slices are
deeply equal when elementwise deeply equal.
-/
def deepEqual : GoValue → GoValue → Bool
  | .intV n, .intV m => n == m
  | .strV s, .strV t => s == t
  | .boolV a, .boolV b => a == b
  | .nilV, .nilV => true
  | .ptrV a p, .ptrV b q => a == b || deepEqual p q
  | .sliceV xs, .sliceV ys => deepEqualList xs ys
  | _, _ => false

/-- Elementwise reflect.DeepEqual on two slices. -/
def deepEqualList : List GoValue → List GoValue → Bool
  | [], [] => true
  | x :: xs, y :: ys => deepEqual x y && deepEqualList xs ys
  | _, _ => false

end

/--
Model of the Go operator == on two interface values, as used by CheckEquals
(src/assert.go line 93). Returns none when the comparison panics: that
happens when both dynamic types are the same non-comparable kind (slices).
Interface values of distinct dynamic types compare unequal without panic;
pointers compare by address identity only.
-/
def shallowEq : GoValue → GoValue → Option Bool
  | .sliceV _, .sliceV _ => none
  | .intV n, .intV m => some (n == m)
  | .strV s, .strV t => some (s == t)
  | .boolV a, .boolV b => some (a == b)
  | .nilV, .nilV => some true
  | .ptrV a _, .ptrV b _ => some (a == b)
  | _, _ => some false

/-- ObjectsAreEqualValues returns true if a == b through reflection (src/assert.go lines 16-18): reflect.DeepEqual. -/
def ObjectsAreEqualValues (a b : GoValue) : Bool :=
  deepEqual a b

mutual

/-- Rendering of a Go value by the fmt package verb v, abstracted: the exact pointer-address rendering is immaterial to the claims. -/
def fmtV : GoValue → String
  | .intV n => toString n
  | .strV s => s
  | .boolV b => if b then "true" else "false"
  | .nilV => "<nil>"
  | .ptrV a _ => "0x" ++ toString a
  | .sliceV xs => "[" ++ fmtVList xs ++ "]"

/-- Space-separated rendering of slice elements. -/
def fmtVList : List GoValue → String
  | [] => ""
  | [x] => fmtV x
  | x :: y :: xs => fmtV x ++ " " ++ fmtVList (y :: xs)

end

/-- Rendering of the variadic msg ...string argument by the fmt verb v. -/
def fmtStrList (msg : List String) : String :=
  "[" ++ String.intercalate " " msg ++ "]"

/-- A source location (base file name and line) as resolved by runtime.Caller. -/
structure Frame where
  file : String
  line : Nat
deriving DecidableEq, Repr

/--
Which host test-failure primitive a helper call invoked:
ok for none, nonFatal for t.Fail (mark failed, the body continues),
fatal for t.FailNow (mark failed, abort the current test body).
-/
inductive Effect where
  | ok
  | nonFatal
  | fatal
deriving DecidableEq, Repr

/--
Observable outcome of one assertion-helper call: the failure primitive it
invoked and, when it printed a diagnostic, the resolved caller location
together with the formatted message body.
-/
structure HelperResult where
  effect : Effect
  output : Option (Frame × String)
deriving DecidableEq, Repr

/-- Outcome of a helper call that did not fail: no effect, no output. -/
def okResult : HelperResult :=
  ⟨Effect.ok, none⟩

/-- True when the helper call marked the test failed (by either primitive). -/
def HelperResult.failed (r : HelperResult) : Bool :=
  match r.effect with
  | Effect.ok => false
  | _ => true

/-- True when the helper call invoked the fatal primitive t.FailNow. -/
def HelperResult.fatalB (r : HelperResult) : Bool :=
  match r.effect with
  | Effect.fatal => true
  | _ => false

/--
Errorf (src/assert.go lines 21-26): prints the resolved caller location and
the formatted message, then calls t.Fail, the non-fatal primitive. The
site argument is the frame that runtime.Caller 2 resolves inside Errorf:
the direct caller of the assertion helper that invoked Errorf.
-/
def Errorf (site : Frame) (body : String) : HelperResult :=
  ⟨Effect.nonFatal, some (site, body)⟩

/--
NotEqual (src/assert.go lines 29-33). The caller argument of each helper is
the source location of its direct caller, which is what runtime.Caller 2
inside Errorf resolves when the helper is invoked directly.
-/
def NotEqual (caller : Frame) (a b : GoValue) (msg : List String) : HelperResult :=
  if ObjectsAreEqualValues a b then
    Errorf caller (fmtV a ++ " unexpectedly equal: " ++ fmtStrList msg)
  else okResult

/-- EqualValues (src/assert.go lines 36-40). -/
def EqualValues (caller : Frame) (a b : GoValue) (msg : List String) : HelperResult :=
  if !ObjectsAreEqualValues a b then
    Errorf caller (fmtV a ++ " unexpectedly not equal " ++ fmtV b ++ ": " ++ fmtStrList msg)
  else okResult

/--
The call site inside the body of Equal at which it invokes EqualValues
(src/assert.go line 44). Because Equal adds one stack frame, runtime.Caller 2
inside Errorf resolves to this frame, not to the caller of Equal.
-/
def equalDelegationSite : Frame :=
  ⟨"assert.go", 44⟩

/--
Equal (src/assert.go lines 43-45): delegates to EqualValues. Its own caller
frame is not reported, because the extra stack frame makes runtime.Caller 2
inside Errorf resolve to the delegation site inside Equal.
-/
def Equal (_caller : Frame) (a b : GoValue) (msg : List String) : HelperResult :=
  EqualValues equalDelegationSite a b msg

/-- A Go error value: none models nil, some models a non-nil error with its message. -/
def GoError := Option String

/-- NoError (src/assert.go lines 48-52): fails when err is non-nil. -/
def NoError (caller : Frame) (err : Option String) (msg : List String) : HelperResult :=
  match err with
  | some e => Errorf caller ("expecting no error, got " ++ e ++ ": " ++ fmtStrList msg)
  | none => okResult

/-- Error (src/assert.go lines 55-59): fails when err is nil. -/
def Error (caller : Frame) (err : Option String) (msg : List String) : HelperResult :=
  match err with
  | none => Errorf caller ("expecting an error, didn\x27t get it: " ++ fmtStrList msg)
  | some _ => okResult

/-- True (src/assert.go lines 62-66): fails when b is false. -/
def True (caller : Frame) (b : Bool) (msg : List String) : HelperResult :=
  if !b then
    Errorf caller ("expecting true, didn\x27t: " ++ fmtStrList msg)
  else okResult

/-- False (src/assert.go lines 69-73): fails when b is true. -/
def False (caller : Frame) (b : Bool) (msg : List String) : HelperResult :=
  if b then
    Errorf caller ("expecting false, didn\x27t: " ++ fmtStrList msg)
  else okResult

/-- Model of strings.Contains on character lists: needle occurs as a contiguous substring. -/
def subListAt : List Char → List Char → Bool
  | needle, [] => needle.isEmpty
  | needle, c :: tl => needle.isPrefixOf (c :: tl) || subListAt needle tl

/-- Model of strings.Contains. -/
def strContains (haystack needle : String) : Bool :=
  subListAt needle.toList haystack.toList

/-- Contains (src/assert.go lines 76-80): fails when needle is not in haystack. -/
def Contains (caller : Frame) (haystack needle : String) (msg : List String) : HelperResult :=
  if !strContains haystack needle then
    Errorf caller (haystack ++ " doesn\x27t contain " ++ needle ++ ": " ++ fmtStrList msg)
  else okResult

/--
Fail (src/assert.go lines 83-88): prints its own caller location
(runtime.Caller 1) and the message, then calls t.FailNow, the fatal
primitive that aborts the current test body.
-/
def Fail (caller : Frame) (msg : String) : HelperResult :=
  ⟨Effect.fatal, some (caller, msg ++ "\n")⟩

/--
CheckEquals (src/assert.go lines 92-99): compares with the Go operator !=
on interface values (identity-style, not deep). Returns none when that
comparison panics on a non-comparable dynamic type; otherwise prints a
mismatch diagnostic and calls t.Fail when unequal.
-/
def CheckEquals (caller : Frame) (actual expected : GoValue) (msg : GoValue) : Option HelperResult :=
  match shallowEq expected actual with
  | none => none
  | some eq =>
    if !eq then
      some ⟨Effect.nonFatal, some (caller,
        "mismatch!\nactual:\n" ++ fmtV actual ++ "\nexpected:\n" ++ fmtV expected
          ++ "\nfor " ++ fmtV msg ++ "\n")⟩
    else some okResult

/-- Assert (src/assert.go lines 103-110): fails non-fatally when cond is false. -/
def Assert (caller : Frame) (cond : Bool) (msg : GoValue) : HelperResult :=
  if !cond then
    ⟨Effect.nonFatal, some (caller, "assert failure: " ++ fmtV msg ++ "\n")⟩
  else okResult

/--
TestSuite (src/assert.go lines 119-121): the base struct of a suite, holding
the testing.T handle, modelled as an abstract Nat identifier (none before
SetT has ever been called, since the Go field starts as a nil pointer).
-/
structure TestSuite where
  t : Option Nat

/-- SetT (src/assert.go lines 129-131): binds the testing.T handle into the suite. -/
def TestSuite.SetT (_s : TestSuite) (h : Nat) : TestSuite :=
  ⟨some h⟩

/-- T (src/assert.go lines 124-126): returns the currently bound testing.T handle. -/
def TestSuite.T (s : TestSuite) : Option Nat :=
  s.t

/--
The reflective shape of a caller-supplied suite value as Run observes it:
its exported method names in the reflection enumeration order
(methodFinder.Method i for increasing i), and whether the dynamic type
satisfies the hasSetupTest and hasTearDown capability interfaces
(src/assert.go lines 133-138 and 146-153).
-/
structure SuiteDesc where
  methods : List String
  hasSetup : Bool
  hasTearDown : Bool

/--
The test-name predicate of Run (src/assert.go line 157):
regexp.MatchString of the anchored pattern caret-Test against the method
name, which holds exactly when the name starts with the literal Test.
-/
def isTestName (name : String) : Bool :=
  List.isPrefixOf "Test".toList name.toList

/--
discoverTests: the first loop of Run (src/assert.go lines 154-167), which
builds the ordered list of testing.InternalTest records: the exported
methods, in enumeration order, whose name matches the test predicate.
-/
def discoverTests (d : SuiteDesc) : List String :=
  d.methods.filter isTestName

/--
One observable action of a Run invocation, each recording the testing.T
handle that TestSuite.T returns at the moment of the call.
-/
inductive Event where
  | setT (h : Nat)
  | setupTestCall (tVisible : Option Nat)
  | testCall (name : String) (tVisible : Option Nat)
  | tearDownTestCall (tVisible : Option Nat)
deriving DecidableEq, Repr

/-- The testing.T handle that the receiving code observes during an event. -/
def Event.visibleT : Event → Option Nat
  | .setT h => some h
  | .setupTestCall v => v
  | .testCall _ v => v
  | .tearDownTestCall v => v

/-- The sub-test name when the event is a test-record execution. -/
def Event.testNameOf : Event → Option String
  | .testCall n _ => some n
  | _ => none

/-- True exactly for SetupTest invocations. -/
def Event.isSetupCall : Event → Bool
  | .setupTestCall _ => true
  | _ => false

/-- True exactly for TearDownTest invocations. -/
def Event.isTearDownCall : Event → Bool
  | .tearDownTestCall _ => true
  | _ => false

/--
The second loop of Run (src/assert.go lines 168-176): for each registered
test record in order, call SetupTest when the capability is present, run the
record as a named sub-test through t.Run, then call TearDownTest when that
capability is present. The suite state s is the one fixed by SetT at the
top of Run; nothing in the loop rebinds it.
-/
def runTests (s : TestSuite) (d : SuiteDesc) : List String → List Event
  | [] => []
  | name :: rest =>
    (if d.hasSetup then [Event.setupTestCall s.T] else [])
      ++ Event.testCall name s.T
      :: ((if d.hasTearDown then [Event.tearDownTestCall s.T] else [])
            ++ runTests s d rest)

/--
Run (src/assert.go lines 142-177): binds t into the suite via SetT, then
discovers the test records by reflection, then executes them sequentially
with setup and teardown bracketing. The result is the ordered trace of
observable actions.
-/
def Run (t : Nat) (d : SuiteDesc) : List Event :=
  let s := TestSuite.SetT ⟨none⟩ t
  Event.setT t :: runTests s d (discoverTests d)

/--
The bracketed sub-trace that one test record named name contributes to a
Run trace: a SetupTest call exactly when the capability is present, the
sub-test body, and a TearDownTest call exactly when that capability is
present, each observing the bound handle t.
-/
def recordTrace (d : SuiteDesc) (t : Nat) (name : String) : List Event :=
  (if d.hasSetup then [Event.setupTestCall (some t)] else [])
    ++ Event.testCall name (some t)
    :: (if d.hasTearDown then [Event.tearDownTestCall (some t)] else [])

/-- The execution loop of Run over a bound suite state is the concatenation of the per-record bracketed traces. -/
theorem runTests_eq_bind (d : SuiteDesc) (t : Nat) (l : List String) :
    runTests ⟨some t⟩ d l = l.flatMap (recordTrace d t) := by
  induction l with
  | nil => rfl
  | cons n rest ih =>
    simp only [runTests, recordTrace, TestSuite.T, List.flatMap_cons, ih, List.append_assoc,
      List.cons_append]

/-- Unfolding of Run to the bound suite state and the discovered records. -/
theorem Run_eq (t : Nat) (d : SuiteDesc) :
    Run t d = Event.setT t :: (discoverTests d).flatMap (recordTrace d t) := by
  show Event.setT t :: runTests (TestSuite.SetT ⟨none⟩ t) d (discoverTests d) = _
  rw [show TestSuite.SetT ⟨none⟩ t = ⟨some t⟩ from rfl, runTests_eq_bind]

/-- Each bracketed record trace contributes exactly its own sub-test name. -/
theorem recordTrace_testNames (d : SuiteDesc) (t : Nat) (name : String) :
    (recordTrace d t name).filterMap Event.testNameOf = [name] := by
  by_cases hs : d.hasSetup <;> by_cases ht : d.hasTearDown <;>
    simp [recordTrace, hs, ht, Event.testNameOf]

/-- The concatenated record traces contribute exactly the record names, in order. -/
theorem bind_recordTrace_testNames (d : SuiteDesc) (t : Nat) (l : List String) :
    ((l.flatMap (recordTrace d t)).filterMap Event.testNameOf) = l := by
  induction l with
  | nil => rfl
  | cons n rest ih =>
    simp [List.flatMap_cons, List.filterMap_append, recordTrace_testNames, ih]

/-- Every event of a bracketed record trace observes the bound handle. -/
theorem recordTrace_visibleT (d : SuiteDesc) (t : Nat) (name : String) :
    ((recordTrace d t name).all fun e => e.visibleT == some t) = true := by
  by_cases hs : d.hasSetup <;> by_cases ht : d.hasTearDown <;>
    simp [recordTrace, hs, ht, Event.visibleT]

/-- Every event of the concatenated record traces observes the bound handle. -/
theorem bind_recordTrace_visibleT (d : SuiteDesc) (t : Nat) (l : List String) :
    ((l.flatMap (recordTrace d t)).all fun e => e.visibleT == some t) = true := by
  induction l with
  | nil => rfl
  | cons n rest ih =>
    simp [List.flatMap_cons, List.all_append, ih, recordTrace_visibleT d t n]

/-- No event of a bracketed record trace is a SetupTest call when the capability is absent, nor a TearDownTest call when that capability is absent. -/
theorem recordTrace_missing_hooks (d : SuiteDesc) (t : Nat) (name : String) :
    (d.hasSetup = false → ((recordTrace d t name).all fun e => !e.isSetupCall) = true) ∧
    (d.hasTearDown = false → ((recordTrace d t name).all fun e => !e.isTearDownCall) = true) := by
  constructor <;> intro h <;>
    by_cases hs : d.hasSetup <;> by_cases ht : d.hasTearDown <;>
    simp_all [recordTrace, Event.isSetupCall, Event.isTearDownCall]

/--
C1: for every suite value passed to Run, the discovered test records execute
sequentially in method-enumeration order, and each record is bracketed by
exactly one SetupTest call immediately before its body (when the suite has
the Setup capability) and exactly one TearDownTest call immediately after
(when the suite has the Teardown capability), with no interleaving of setup
or teardown calls across records: the trace of Run is exactly the
concatenation, over the discovered records in order, of the per-record
bracketed traces.
-/
theorem run_brackets_each_record (t : Nat) (d : SuiteDesc) :
    Run t d = Event.setT t :: (discoverTests d).flatMap (recordTrace d t) :=
  Run_eq t d

/--
C2: Run registers as test records exactly those public methods of the suite
value whose name starts with the literal prefix Test, in order; a method
whose name does not start with Test, such as one named Helper, is never
invoked as a test.
-/
theorem run_registers_exactly_test_prefixed (t : Nat) (d : SuiteDesc) :
    (Run t d).filterMap Event.testNameOf = d.methods.filter isTestName ∧
    isTestName "Helper" = false := by
  constructor
  · rw [Run_eq]
    simp only [List.filterMap_cons, Event.testNameOf]
    exact bind_recordTrace_testNames d t (discoverTests d)
  · decide

/--
C3: for every Run invocation, the test-context handle t is bound into the
suite via SetT before any method enumeration or test invocation occurs (the
binding is the first observable action of the trace), and T returns that
same handle at every setup call, every test body, and every teardown call
of the Run.
-/
theorem run_binds_handle_first_and_everywhere (t : Nat) (d : SuiteDesc) :
    (Run t d).head? = some (Event.setT t) ∧
    ((Run t d).all fun e => e.visibleT == some t) = true := by
  constructor
  · rfl
  · rw [Run_eq]
    simp only [List.all_cons, Event.visibleT, beq_self_eq_true, Bool.true_and]
    exact bind_recordTrace_visibleT d t (discoverTests d)

/--
C8: for every suite value lacking the Setup capability and/or the Teardown
capability, Run completes normally: the missing hook is never invoked for
any test record (no SetupTest call appears in the trace when the Setup
capability is absent, and no TearDownTest call when the Teardown capability
is absent), while every discovered test record still executes.
-/
theorem run_skips_missing_hooks (t : Nat) (d : SuiteDesc) :
    (d.hasSetup = false → ((Run t d).all fun e => !e.isSetupCall) = true) ∧
    (d.hasTearDown = false → ((Run t d).all fun e => !e.isTearDownCall) = true) ∧
    (Run t d).filterMap Event.testNameOf = discoverTests d := by
  refine ⟨fun h => ?_, fun h => ?_, ?_⟩
  · rw [Run_eq, List.all_cons,
      show (!(Event.setT t).isSetupCall) = true from rfl, Bool.true_and]
    induction discoverTests d with
    | nil => rfl
    | cons n rest ih =>
      rw [List.flatMap_cons, List.all_append, (recordTrace_missing_hooks d t n).1 h, ih,
        Bool.and_self]
  · rw [Run_eq, List.all_cons,
      show (!(Event.setT t).isTearDownCall) = true from rfl, Bool.true_and]
    induction discoverTests d with
    | nil => rfl
    | cons n rest ih =>
      rw [List.flatMap_cons, List.all_append, (recordTrace_missing_hooks d t n).2 h, ih,
        Bool.and_self]
  · rw [Run_eq]
    simp only [List.filterMap_cons, Event.testNameOf]
    exact bind_recordTrace_testNames d t (discoverTests d)

/-- Witness for C8 at a concrete suite with neither optional capability. -/
theorem run_skips_missing_hooks_witness :
    ((Run 0 ⟨["TestA", "Helper"], false, false⟩).all fun e => !e.isSetupCall) = true ∧
    ((Run 0 ⟨["TestA", "Helper"], false, false⟩).all fun e => !e.isTearDownCall) = true :=
  ⟨(run_skips_missing_hooks 0 ⟨["TestA", "Helper"], false, false⟩).1 rfl,
   (run_skips_missing_hooks 0 ⟨["TestA", "Helper"], false, false⟩).2.1 rfl⟩

/--
C4: for all pairs of values a and b, if a and b are deeply (structurally)
equal then Equal reports no failure and NotEqual reports a failure, and if
a and b are deeply unequal then Equal reports a failure and NotEqual
reports no failure: each failure flag equals the corresponding deep-equality
verdict.
-/
theorem equal_notEqual_follow_deep_equality (caller : Frame) (a b : GoValue)
    (msg : List String) :
    (Equal caller a b msg).failed = !deepEqual a b ∧
    (NotEqual caller a b msg).failed = deepEqual a b := by
  cases h : deepEqual a b <;>
    simp [Equal, EqualValues, NotEqual, ObjectsAreEqualValues, h, Errorf, okResult,
      HelperResult.failed]

/--
C5: NoError reports a failure if and only if the error is non-nil, and
Error reports a failure if and only if the error is nil.
-/
theorem noError_error_follow_nil (caller : Frame) (err : Option String)
    (msg : List String) :
    (NoError caller err msg).failed = err.isSome ∧
    (Error caller err msg).failed = err.isNone := by
  cases err <;> simp [NoError, Error, Errorf, okResult, HelperResult.failed]

/--
C6: on assertion failure, Fail invokes the host abort primitive t.FailNow
(mark failed and stop the current test body immediately), while Equal,
NotEqual, True, False, Contains, NoError, Error, Assert and CheckEquals
invoke only the non-fatal primitive t.Fail (mark failed, the body continues)
and never the fatal one, at every input.
-/
theorem fail_fatal_others_nonfatal (caller : Frame) (a b mv : GoValue)
    (hay needle fm : String) (bb : Bool) (err : Option String) (msg : List String) :
    (Fail caller fm).effect = Effect.fatal ∧
    (Equal caller a b msg).fatalB = false ∧
    (NotEqual caller a b msg).fatalB = false ∧
    (True caller bb msg).fatalB = false ∧
    (False caller bb msg).fatalB = false ∧
    (Contains caller hay needle msg).fatalB = false ∧
    (NoError caller err msg).fatalB = false ∧
    (Error caller err msg).fatalB = false ∧
    (Assert caller bb mv).fatalB = false ∧
    Option.all (fun r => !r.fatalB) (CheckEquals caller a b mv) = true := by
  refine ⟨rfl, ?_, ?_, ?_, ?_, ?_, ?_, ?_, ?_, ?_⟩
  · unfold Equal EqualValues
    split <;> rfl
  · unfold NotEqual
    split <;> rfl
  · unfold True
    split <;> rfl
  · unfold False
    split <;> rfl
  · unfold Contains
    split <;> rfl
  · cases err <;> rfl
  · cases err <;> rfl
  · unfold Assert
    split <;> rfl
  · unfold CheckEquals
    cases shallowEq b a with
    | none => rfl
    | some eq => cases eq <;> rfl

/-- The dynamic-type tag of an interface value: values with different tags have incompatible dynamic types. -/
def typeTag : GoValue → Nat
  | .intV _ => 0
  | .strV _ => 1
  | .boolV _ => 2
  | .nilV => 3
  | .ptrV _ _ => 4
  | .sliceV _ => 5

/-- Values of incompatible dynamic types are never deeply equal. -/
theorem typeTag_ne_deepEqual (a b : GoValue) (h : typeTag a ≠ typeTag b) :
    deepEqual a b = false := by
  cases a <;> cases b <;> simp_all [typeTag, deepEqual]

/-- The Go operator == on values of incompatible dynamic types returns false without panicking. -/
theorem typeTag_ne_shallowEq (a b : GoValue) (h : typeTag a ≠ typeTag b) :
    shallowEq a b = some false := by
  cases a <;> cases b <;> simp_all [typeTag, shallowEq]

/--
C7: each assertion helper is a total function of its input (the embedding
returns a defined HelperResult at every input); a type-incompatible
comparison reports a mismatch rather than crashing, for Equal, NotEqual and
also CheckEquals; the sole carve-out is CheckEquals on incomparable
composite types of the same dynamic kind, where the identity comparison
panics (modelled as none).
-/
theorem helpers_no_crash_except_checkEquals (caller : Frame) (a b mv : GoValue)
    (msg : List String) (h : typeTag a ≠ typeTag b) :
    (Equal caller a b msg).effect = Effect.nonFatal ∧
    (NotEqual caller a b msg).effect = Effect.ok ∧
    (CheckEquals caller a b mv).map HelperResult.effect = some Effect.nonFatal ∧
    CheckEquals caller (GoValue.sliceV []) (GoValue.sliceV []) mv = none := by
  refine ⟨?_, ?_, ?_, rfl⟩
  · simp [Equal, EqualValues, ObjectsAreEqualValues, typeTag_ne_deepEqual a b h, Errorf]
  · simp [NotEqual, ObjectsAreEqualValues, typeTag_ne_deepEqual a b h, okResult]
  · have hba : typeTag b ≠ typeTag a := fun e => h e.symm
    simp [CheckEquals, typeTag_ne_shallowEq b a hba]

/-- Witness for C7 at a concrete type-incompatible pair. -/
theorem helpers_no_crash_except_checkEquals_witness :
    (Equal ⟨"t.go", 1⟩ (GoValue.intV 0) (GoValue.strV "x") []).effect = Effect.nonFatal ∧
    (NotEqual ⟨"t.go", 1⟩ (GoValue.intV 0) (GoValue.strV "x") []).effect = Effect.ok ∧
    (CheckEquals ⟨"t.go", 1⟩ (GoValue.intV 0) (GoValue.strV "x") GoValue.nilV).map
        HelperResult.effect = some Effect.nonFatal ∧
    CheckEquals ⟨"t.go", 1⟩ (GoValue.sliceV []) (GoValue.sliceV []) GoValue.nilV = none :=
  helpers_no_crash_except_checkEquals ⟨"t.go", 1⟩ (GoValue.intV 0) (GoValue.strV "x")
    GoValue.nilV [] (by decide)

/--
C9: CheckEquals compares by shallow identity rather than deep structure: on
a concrete pair of structurally-equal but distinct composite instances (two
distinct pointers to equal values), CheckEquals reports a mismatch while
Equal on the same pair reports no failure.
-/
theorem checkEquals_identity_not_deep :
    (CheckEquals ⟨"t.go", 2⟩ (GoValue.ptrV 1 (GoValue.intV 5))
        (GoValue.ptrV 2 (GoValue.intV 5)) GoValue.nilV).map HelperResult.effect
      = some Effect.nonFatal ∧
    (Equal ⟨"t.go", 2⟩ (GoValue.ptrV 1 (GoValue.intV 5))
        (GoValue.ptrV 2 (GoValue.intV 5)) []).effect = Effect.ok := by
  constructor <;> rfl

/--
C10 counterexample: Equal and EqualValues do not have identical observable
behaviour at the same call site: Errorf resolves the caller two stack
frames up, and Equal adds a delegation frame, so the two report different
source locations in their failure output for the same arguments.
-/
theorem equal_equalValues_differ_in_location :
    ¬ (Equal ⟨"user_test.go", 10⟩ (GoValue.intV 0) (GoValue.intV 1) []
        = EqualValues ⟨"user_test.go", 10⟩ (GoValue.intV 0) (GoValue.intV 1) []) := by
  intro h
  have := congrArg (fun r => r.output.map Prod.fst) h
  simp [Equal, EqualValues, ObjectsAreEqualValues, deepEqual, Errorf,
    equalDelegationSite] at this

/--
C10 amended: Equal delegates to EqualValues, so for every call site, pair
of values and message list it makes the same failure decision and prints
the same message body as EqualValues; the whole observable result equals
that of EqualValues invoked from the delegation site inside Equal, which
differs from a direct EqualValues call only in the reported source
location.
-/
theorem equal_delegates_to_equalValues (caller : Frame) (a b : GoValue)
    (msg : List String) :
    (Equal caller a b msg).effect = (EqualValues caller a b msg).effect ∧
    (Equal caller a b msg).output.map Prod.snd
      = (EqualValues caller a b msg).output.map Prod.snd ∧
    Equal caller a b msg = EqualValues equalDelegationSite a b msg := by
  refine ⟨?_, ?_, rfl⟩ <;>
    cases h : ObjectsAreEqualValues a b <;>
    simp [Equal, EqualValues, h, Errorf, okResult]

end assert
